import Mathlib

/-!
Verification of the module-proxy client and README-rendering fragments of
the pkgsite repository.

The proxy client (identity encoder, endpoint builder, transport invoker,
info resolver, archive resolver) is exercised by the repository's tests in
internal/proxy/client_test.go; its implementation is modelled here from the
specification (spec.md sections 4.1-4.5 and 6).  The README-rendering code
(internal/frontend/readme.go) is present in the repository and is embedded
directly from its source.
-/

namespace Pkgsite

/-! ## Identity encoder (spec 4.1) -/

/-- Modelled from the spec: the per-character escaping step of the identity
encoder.  Each ASCII uppercase letter is replaced by the escape marker
character followed by the lowercase form of that letter; every other
character passes through unchanged.  -/
def escapeList : List Char → List Char
  | [] => []
  | c :: cs => if c.isUpper then '!' :: c.toLower :: escapeList cs else c :: escapeList cs

/-- Modelled from the spec: the escaping step applied to a whole string. -/
def escapeString (s : String) : String := ⟨escapeList s.data⟩

/-- Modelled from the spec (4.1): the identity encoder.  If the raw path or
version already contains the escape marker character the call fails with an
"invalid input: path already escaped" error; otherwise both components are
escaped independently.  Corresponds to encodeModulePathAndVersion in the
proxy client, whose behaviour is fixed by TestEncodeModulePathAndVersion. -/
def encodeModulePathAndVersion (path version : String) : Except String (String × String) :=
  if path.data.contains '!' || version.data.contains '!' then
    .error "invalid input: path already escaped"
  else
    .ok (escapeString path, escapeString version)

/-- Modelled from the spec: the per-character unescaping step, reversing the
substitution exactly: the escape marker followed by a letter becomes that
letter's uppercase form, and every other character passes through.  -/
def unescapeList : List Char → List Char
  | [] => []
  | c :: cs =>
    if c = '!' then
      match cs with
      | [] => c :: unescapeList []
      | d :: ds => d.toUpper :: unescapeList ds
    else c :: unescapeList cs

/-- Modelled from the spec: decoding applied to a whole string. -/
def unescapeString (s : String) : String := ⟨unescapeList s.data⟩

/-- Modelled from the spec: the decoder for an encoded (path, version) pair;
decoding reverses the substitution exactly.  -/
def decodeModulePathAndVersion (encPath encVersion : String) : String × String :=
  (unescapeString encPath, unescapeString encVersion)

/-! ## Endpoint builder (spec 4.2) -/

/-- Modelled from the spec (4.2): base-URL normalization, stripping all
trailing slash characters.  Behaviour fixed by TestCleanURL.  -/
def cleanURL (url : String) : String :=
  ⟨((url.data.reverse.dropWhile (fun c => c == '/')).reverse)⟩

/-! ## Transport invoker and resolvers (spec 3, 4.3-4.5) -/

/-- Modelled from the spec (3): decoded version metadata, a version string
and the commit timestamp (an RFC3339 string).  -/
structure VersionInfo where
  Version : String
  Time : String
deriving DecidableEq

/-- Modelled from the spec (3): a protocol-level error carrying enough
information to reproduce the failing request.  -/
structure ProxyError where
  requestedURL : String
  statusCode : Nat
  statusText : String
deriving DecidableEq

/-- Modelled from the spec (4.3-4.5): the body of a proxy response, as the
resolvers interpret it: a body that decodes as version metadata, a body
that parses as a zip archive with the given entry names, or a body that
does neither (malformed JSON or corrupt archive).  -/
inductive RawBody where
  | infoJSON (info : VersionInfo)
  | zipBytes (entries : List String)
  | malformed
deriving DecidableEq

/-- Modelled from the spec (4.3): an HTTP response, as a status code, the
status line text, and a body.  -/
structure HTTPResponse where
  statusCode : Nat
  statusText : String
  body : RawBody
deriving DecidableEq

/-- Modelled from the spec (7): the error kinds the client returns. -/
inductive ClientError where
  | invalidInput (msg : String)
  | proxyError (e : ProxyError)
  | decodeFailure
deriving DecidableEq

/-- Modelled from the spec (9): the proxy client, holding the configured
base URL and an abstract HTTP-capable endpoint mapping each request URL to
a response.  -/
structure Client where
  url : String
  server : String → HTTPResponse

/-- Modelled from the spec: Go %q quoting for the printable strings the
client puts in error messages, wrapping in double quotes and escaping any
embedded quote or backslash.  -/
def goQuote (s : String) : String :=
  "\"" ++ ⟨s.data.flatMap (fun c => if c = '"' ∨ c = '\\' then ['\\', c] else [c])⟩ ++ "\""

/-- Modelled from the spec (4.3): the stable error-message format for a
non-200 response, http.Get(%q) returned response: %d (%q).  -/
def formatResponseError (url : String) (status : Nat) (text : String) : String :=
  "http.Get(" ++ goQuote url ++ ") returned response: "
    ++ toString status ++ " (" ++ goQuote text ++ ")"

/-- Modelled from the spec (7): the message of each returned error. -/
def ClientError.message : ClientError → String
  | .invalidInput msg => msg
  | .proxyError e => formatResponseError e.requestedURL e.statusCode e.statusText
  | .decodeFailure => "decode failure"

/-- Modelled from the spec (4.2): the info endpoint URL for an encoded
identity, propagating an encoder error unchanged.  -/
def Client.infoURL (c : Client) (path version : String) : Except String String :=
  match encodeModulePathAndVersion path version with
  | .error msg => .error msg
  | .ok (ep, ev) => .ok (cleanURL c.url ++ "/" ++ ep ++ "/@v/" ++ ev ++ ".info")

/-- Modelled from the spec (4.2): the zip endpoint URL for an encoded
identity, propagating an encoder error unchanged.  -/
def Client.zipURL (c : Client) (path version : String) : Except String String :=
  match encodeModulePathAndVersion path version with
  | .error msg => .error msg
  | .ok (ep, ev) => .ok (cleanURL c.url ++ "/" ++ ep ++ "/@v/" ++ ev ++ ".zip")

/-- Modelled from the spec (4.3): the transport invoker.  A 200 response
yields the body; any other status is classified as a ProxyError carrying
the request URL, the numeric status, and the status text.  -/
def Client.fetch (c : Client) (url : String) : Except ProxyError RawBody :=
  let r := c.server url
  if r.statusCode = 200 then .ok r.body
  else .error ⟨url, r.statusCode, r.statusText⟩

/-- Modelled from the spec (4.4): the info resolver: encode, build the info
URL, fetch, then decode the body as version metadata; a body that does not
decode is a distinct decode failure.  -/
def Client.GetInfo (c : Client) (path version : String) : Except ClientError VersionInfo :=
  match c.infoURL path version with
  | .error msg => .error (.invalidInput msg)
  | .ok u =>
    match c.fetch u with
    | .error pe => .error (.proxyError pe)
    | .ok (.infoJSON info) => .ok info
    | .ok _ => .error .decodeFailure

/-- Modelled from the spec (4.5): the archive resolver: encode, build the
zip URL, fetch, then parse the body as a zip archive, returning its entry
names verbatim; a body that is not a well-formed archive is a distinct
corrupt-archive failure.  -/
def Client.GetZip (c : Client) (path version : String) : Except ClientError (List String) :=
  match c.zipURL path version with
  | .error msg => .error (.invalidInput msg)
  | .ok u =>
    match c.fetch u with
    | .error pe => .error (.proxyError pe)
    | .ok (.zipBytes entries) => .ok entries
    | .ok _ => .error .decodeFailure

/-- Modelled from the repository's test fixture (SetupTestProxy): a proxy
serving version v1.0.0 of module my.mod/module with commit timestamp
2019-01-30T00:00:00Z and a five-entry archive, and 404 Not Found for every
other request.  -/
def testProxyServer : String → HTTPResponse := fun u =>
  if u = "http://testproxy.com/my.mod/module/@v/v1.0.0.info" then
    ⟨200, "200 OK", .infoJSON ⟨"v1.0.0", "2019-01-30T00:00:00Z"⟩⟩
  else if u = "http://testproxy.com/my.mod/module/@v/v1.0.0.zip" then
    ⟨200, "200 OK", .zipBytes
      ["my.mod/module@v1.0.0/LICENSE", "my.mod/module@v1.0.0/README.md",
       "my.mod/module@v1.0.0/go.mod", "my.mod/module@v1.0.0/foo/foo.go",
       "my.mod/module@v1.0.0/bar/bar.go"]⟩
  else ⟨404, "404 Not Found", .malformed⟩

/-- Modelled from the repository's test fixture: the client under test. -/
def testClient : Client := ⟨"http://testproxy.com", testProxyServer⟩

/-! ## README rendering (internal/frontend/readme.go) -/

/-- Embedded from Go's path/filepath Ext, as called by readmeHTML: scan the
path backwards; a dot starts the extension (the suffix beginning at the
final dot in the final slash-separated element); a path separator or the
start of the string means there is none.  The scan runs over the reversed
character list, carrying the characters already passed (in order).  -/
def extScan (acc : List Char) : List Char → String
  | [] => ""
  | c :: rest =>
    if c = '/' then ""
    else if c = '.' then ⟨'.' :: acc⟩
    else extScan (c :: acc) rest

/-- Embedded from Go's path/filepath Ext (readme.go line 43). -/
def filepathExt (p : String) : String := extScan [] p.data.reverse

/-- Embedded from Go's html EscapeString, as called by readmeHTML: the five
HTML metacharacters are replaced by their entities and every other
character passes through.  -/
def htmlEscapeChar (c : Char) : List Char :=
  if c = '&' then ['&', 'a', 'm', 'p', ';']
  else if c = Char.ofNat 39 then ['&', '#', '3', '9', ';']
  else if c = '<' then ['&', 'l', 't', ';']
  else if c = '>' then ['&', 'g', 't', ';']
  else if c = '"' then ['&', '#', '3', '4', ';']
  else [c]

/-- Embedded from Go's html EscapeString applied to a whole string. -/
def htmlEscapeString (s : String) : String := ⟨s.data.flatMap htmlEscapeChar⟩

/-- Embedded from internal/frontend/readme.go, readmeHTML (lines 42-76).
When the readme file path's extension is not .md the contents are
HTML-escaped and wrapped in a pre element.  The markdown branch (blackfriday
parse, image-link translation, render, bluemonday sanitize) is an external
collaborator of the fragment under scrutiny and is abstracted as the
markdownPipeline parameter.  -/
def readmeHTML (markdownPipeline : String → String)
    (readmeFilePath readmeContents : String) : String :=
  if filepathExt readmeFilePath ≠ ".md" then
    "<pre class=\"readme\">" ++ htmlEscapeString readmeContents ++ "</pre>"
  else markdownPipeline readmeContents

/-- Embedded from Go's net/url URL, restricted to the fields
translateRelativeLink reads or writes: scheme, host, and path.  -/
structure URL where
  scheme : String
  host : String
  path : String
deriving DecidableEq

/-- Embedded from Go's net/url splitHostPort, host component: a trailing
colon-digits port (LastIndexByte plus validOptionalPort) is stripped, then
surrounding square brackets are stripped.  -/
def splitHostPortHost (hostPort : String) : String :=
  let l := hostPort.data
  let host :=
    if l.contains ':' then
      let afterRev := l.reverse.takeWhile (fun c => c ≠ ':')
      if afterRev.all (fun c => c.isDigit) then l.take (l.length - (afterRev.length + 1))
      else l
    else l
  let host2 :=
    if host.head? = some '[' ∧ host.getLast? = some ']' then (host.drop 1).dropLast
    else host
  ⟨host2⟩

/-- Embedded from Go's net/url URL.Hostname. -/
def URL.hostname (u : URL) : String := splitHostPortHost u.host

/-- Embedded from Go's net/url URL.IsAbs: a URL is absolute when its scheme
is non-empty.  -/
def URL.isAbs (u : URL) : Bool := u.scheme ≠ ""

/-- Embedded from Go's net/url URL.String, restricted to the shape built at
readme.go line 88: non-empty scheme and host, no user, query, or fragment;
a slash is inserted when the path is non-empty, its first byte is not a
slash, and the host is present.  -/
def urlString (u : URL) : String :=
  u.scheme ++ "://" ++ u.host ++
    (if u.path ≠ "" ∧ u.path.data.head? ≠ some '/' ∧ u.host ≠ "" then "/" else "") ++ u.path

/-- Embedded from Go's path Clean, backtracking position for a dot-dot
element: starting at the write position, walk left while above the dotdot
floor and not on a slash.  -/
def btPos (out : List Char) (dotdot : Nat) : Nat → Nat
  | 0 => 0
  | w + 1 =>
    if w + 1 > dotdot ∧ out.getD (w + 1) ' ' ≠ '/' then btPos out dotdot w
    else w + 1

/-- Embedded from Go's path Clean, main loop.  The state is the output
buffer, the dotdot floor, and the remaining input; the cases are, in order:
a slash (skipped), a dot element (skipped), a dot-dot element (backtrack
above the floor, or append dot-dot when not rooted, or drop at the root),
and a normal element (appended after a separator when needed).  -/
def cleanStep (rooted : Bool) : List Char → Nat → List Char → List Char
  | out, _, [] => out
  | out, dotdot, c :: rest =>
    if c = '/' then cleanStep rooted out dotdot rest
    else if c = '.' ∧ (rest = [] ∨ rest.head? = some '/') then
      cleanStep rooted out dotdot rest
    else if c = '.' ∧ rest.head? = some '.'
        ∧ (rest.tail = [] ∨ rest.tail.head? = some '/') then
      if out.length > dotdot then
        cleanStep rooted (out.take (btPos out dotdot (out.length - 1))) dotdot rest.tail
      else if !rooted then
        let out2 := (if out.length > 0 then out ++ ['/'] else out) ++ ['.', '.']
        cleanStep rooted out2 out2.length rest.tail
      else cleanStep rooted out dotdot rest.tail
    else
      let out2 :=
        (if (rooted ∧ out.length ≠ 1) ∨ (¬ rooted ∧ out.length ≠ 0) then out ++ ['/'] else out)
          ++ (c :: rest.takeWhile (fun x => x ≠ '/'))
      cleanStep rooted out2 dotdot (rest.dropWhile (fun x => x ≠ '/'))
  termination_by _ _ l => l.length
  decreasing_by
    all_goals
      simp only [List.length_cons]
      first
        | omega
        | (have h := List.length_tail rest
           omega)
        | (have h : (rest.dropWhile (fun x => x ≠ '/')).length ≤ rest.length :=
             (List.dropWhile_sublist (fun x => x ≠ '/')).length_le
           omega)

/-- Embedded from Go's path Clean: empty input yields a dot, a rooted path
seeds the buffer with the root slash, and an empty result yields a dot. -/
def goPathClean (p : String) : String :=
  if p = "" then "."
  else
    let l := p.data
    let out :=
      if l.head? = some '/' then cleanStep true ['/'] 1 l.tail
      else cleanStep false [] 0 l
    if out.isEmpty then "." else ⟨out⟩

/-- Embedded from Go's path Join: the elements from the first non-empty one
on are joined with slashes and cleaned; all-empty input yields the empty
string.  -/
def goPathJoin : List String → String
  | [] => ""
  | e :: rest => if e = "" then goPathJoin rest else goPathClean (String.intercalate "/" (e :: rest))

/-- Embedded from blackfriday's Node, restricted to the only field
translateRelativeLink touches: the link destination.  -/
structure Node where
  destination : String
deriving DecidableEq

/-- Embedded from internal/frontend/readme.go, translateRelativeLink (lines
80-90).  Go's url.Parse of the destination is an external library call and
is abstracted as the parse parameter, returning none exactly when parsing
fails.  When the repository host is github.com and the destination parses
as a non-absolute URL, the destination is replaced by an absolute https URL
on raw.githubusercontent.com joining the repository path, master, and the
cleaned image path; otherwise the node is returned unchanged.  -/
def translateRelativeLink (parse : String → Option URL) (node : Node) (repository : URL) :
    Node :=
  if repository.hostname ≠ "github.com" then node
  else
    match parse node.destination with
    | none => node
    | some imageURL =>
      if imageURL.isAbs then node
      else
        let abs : URL := ⟨"https", "raw.githubusercontent.com",
          goPathJoin [repository.path, "master", goPathClean imageURL.path]⟩
        ⟨urlString abs⟩

/-- A concrete repository URL for exercising translateRelativeLink, as
parsed from a github.com repository page.  -/
def sampleRepo : URL := ⟨"https", "github.com", "/gin-gonic/gin"⟩

/-- A concrete parser fixture: the relative image path foo/logo.png parses
to a URL with empty scheme and host; everything else fails to parse.  -/
def sampleParse : String → Option URL := fun s =>
  if s = "foo/logo.png" then some ⟨"", "", "foo/logo.png"⟩ else none

/-- A concrete image node whose destination is a relative path. -/
def sampleNode : Node := ⟨"foo/logo.png"⟩

/-! ## Supporting character lemmas -/

theorem char_toNat_ofNat {n : Nat} (h : n.isValidChar) : (Char.ofNat n).toNat = n := by
  simp only [Char.ofNat, dif_pos h, Char.ofNatAux, Char.toNat]
  simp [UInt32.toNat]

theorem isUpper_toNat {c : Char} (h : c.isUpper = true) : 65 ≤ c.toNat ∧ c.toNat ≤ 90 := by
  simp only [Char.isUpper, Bool.and_eq_true, decide_eq_true_eq] at h
  exact ⟨h.1, h.2⟩

theorem toLower_eq_of_isUpper {c : Char} (h : c.isUpper = true) :
    c.toLower = Char.ofNat (c.toNat + 32) := by
  obtain ⟨h1, h2⟩ := isUpper_toNat h
  unfold Char.toLower
  rw [if_pos ⟨h1, h2⟩]

theorem toUpper_toLower_of_isUpper (c : Char) (h : c.isUpper = true) :
    (c.toLower).toUpper = c := by
  obtain ⟨h1, h2⟩ := isUpper_toNat h
  have hvalid : (c.toNat + 32).isValidChar := by left; omega
  rw [toLower_eq_of_isUpper h]
  unfold Char.toUpper
  rw [char_toNat_ofNat hvalid]
  rw [if_pos ⟨by omega, by omega⟩]
  have h3 : c.toNat + 32 - 32 = c.toNat := by omega
  rw [h3]
  exact Char.ofNat_toNat c

theorem toLower_ne_bang {c : Char} (h : c.isUpper = true) : c.toLower ≠ '!' := by
  obtain ⟨h1, h2⟩ := isUpper_toNat h
  have hvalid : (c.toNat + 32).isValidChar := by left; omega
  rw [toLower_eq_of_isUpper h]
  intro hEq
  have hN : (Char.ofNat (c.toNat + 32)).toNat = ('!' : Char).toNat := by rw [hEq]
  rw [char_toNat_ofNat hvalid] at hN
  have hBang : ('!' : Char).toNat = 33 := rfl
  omega

theorem isUpper_ne_bang {c : Char} (h : c.isUpper = true) : c ≠ '!' := by
  intro hEq
  subst hEq
  exact absurd h (by decide)

/-! ## Encoder lemmas -/

theorem escapeList_no_upper {l : List Char} (h : ∀ c ∈ l, c.isUpper = false) :
    escapeList l = l := by
  induction l with
  | nil => rfl
  | cons c cs ih =>
    have hc : c.isUpper = false := h c (List.mem_cons_self c cs)
    have hcs : ∀ x ∈ cs, x.isUpper = false := fun x hx => h x (List.mem_cons_of_mem c hx)
    simp [escapeList, hc, ih hcs]

theorem unescapeList_cons_ne {c : Char} (t : List Char) (hc : c ≠ '!') :
    unescapeList (c :: t) = c :: unescapeList t := by
  rw [unescapeList.eq_def]
  dsimp only
  rw [if_neg hc]

theorem unescapeList_marker (d : Char) (ds : List Char) :
    unescapeList ('!' :: d :: ds) = d.toUpper :: unescapeList ds := by
  simp [unescapeList]

theorem unescapeList_escapeList {l : List Char} (h : '!' ∉ l) :
    unescapeList (escapeList l) = l := by
  induction l with
  | nil => rfl
  | cons c cs ih =>
    have hc : c ≠ '!' := fun hEq => h (hEq ▸ List.mem_cons_self c cs)
    have hcs : '!' ∉ cs := fun hx => h (List.mem_cons_of_mem c hx)
    by_cases hu : c.isUpper = true
    · rw [escapeList, if_pos hu, unescapeList_marker]
      rw [toUpper_toLower_of_isUpper c hu, ih hcs]
    · rw [escapeList, if_neg hu, unescapeList_cons_ne _ hc, ih hcs]

theorem escapeList_flatMap (l : List Char) :
    escapeList l = l.flatMap (fun c => if c.isUpper then ['!', c.toLower] else [c]) := by
  induction l with
  | nil => rfl
  | cons c cs ih =>
    by_cases hu : c.isUpper = true
    · simp [escapeList, hu, ih]
    · simp [escapeList, hu, ih]

theorem string_mk_data (s : String) : String.mk s.data = s := rfl

theorem contains_eq_false_of_not_mem {l : List Char} {a : Char} (h : a ∉ l) :
    l.contains a = false := by
  simp [List.contains, List.elem_eq_mem, h]

/-! ## Claim theorems for the identity encoder -/

/-- Claim C1: the encoder replaces each ASCII uppercase letter with the
escape marker followed by its lowercase form and leaves every other
character unchanged (closed form as a per-character flatMap); a pair whose
components hold no uppercase letter and no marker is returned unchanged;
and the concrete Azure example from TestEncodeModulePathAndVersion holds. -/
theorem claim_C1_encoder_escapes_uppercase :
    (∀ l : List Char,
        escapeList l = l.flatMap (fun c => if c.isUpper then ['!', c.toLower] else [c]))
    ∧ (∀ p v : String,
        (∀ c ∈ p.data, c.isUpper = false) → (∀ c ∈ v.data, c.isUpper = false) →
        '!' ∉ p.data → '!' ∉ v.data →
        encodeModulePathAndVersion p v = .ok (p, v))
    ∧ encodeModulePathAndVersion "github.com/Azure/go-autorest" "v11.0.0+incompatible" =
        .ok ("github.com/!azure/go-autorest", "v11.0.0+incompatible") := by
  refine ⟨escapeList_flatMap, ?_, by rfl⟩
  intro p v hp hv hpm hvm
  unfold encodeModulePathAndVersion
  rw [contains_eq_false_of_not_mem hpm, contains_eq_false_of_not_mem hvm]
  simp only [Bool.or_self, Bool.false_eq_true, if_false]
  unfold escapeString
  rw [escapeList_no_upper hp, escapeList_no_upper hv]

/-- Witness for C1 at a concrete uppercase-free, marker-free input. -/
theorem claim_C1_witness :
    encodeModulePathAndVersion "my.mod/module" "v1.0.0" = .ok ("my.mod/module", "v1.0.0") :=
  claim_C1_encoder_escapes_uppercase.2.1 "my.mod/module" "v1.0.0"
    (by decide) (by decide) (by decide) (by decide)

/-- Claim C2: an input path or version that already contains the escape
marker is rejected with the "invalid input: path already escaped" error;
the success branch is never taken for such input. -/
theorem claim_C2_encoder_rejects_marker (p v : String)
    (h : '!' ∈ p.data ∨ '!' ∈ v.data) :
    encodeModulePathAndVersion p v = .error "invalid input: path already escaped" := by
  unfold encodeModulePathAndVersion
  have hcond : (p.data.contains '!' || v.data.contains '!') = true := by
    rcases h with h | h
    · simp [List.contains, List.elem_eq_mem, h]
    · simp [List.contains, List.elem_eq_mem, h]
  rw [hcond]
  rfl

/-- Witness for C2 at the pre-escaped path of TestEncodeModulePathAndVersion. -/
theorem claim_C2_witness :
    encodeModulePathAndVersion "github.com/!azure/go-autorest" "v11.0.0+incompatible" =
      .error "invalid input: path already escaped" :=
  claim_C2_encoder_rejects_marker "github.com/!azure/go-autorest" "v11.0.0+incompatible"
    (Or.inl (by decide))

/-- Claim C3: for every pair accepted by the encoder, decoding the encoded
output recovers the original pair exactly. -/
theorem claim_C3_decode_encode (p v ep ev : String)
    (h : encodeModulePathAndVersion p v = .ok (ep, ev)) :
    decodeModulePathAndVersion ep ev = (p, v) := by
  unfold encodeModulePathAndVersion at h
  by_cases hcond : (p.data.contains '!' || v.data.contains '!') = true
  · rw [hcond] at h
    simp at h
  · rw [Bool.not_eq_true] at hcond
    rw [hcond] at h
    simp only [Bool.false_eq_true, if_false, Except.ok.injEq, Prod.mk.injEq] at h
    obtain ⟨hep, hev⟩ := h
    have hpm : '!' ∉ p.data := by
      intro hm
      have : p.data.contains '!' = true := by simp [List.contains, List.elem_eq_mem, hm]
      rw [Bool.or_eq_false_iff] at hcond
      rw [this] at hcond
      exact absurd hcond.1 (by simp)
    have hvm : '!' ∉ v.data := by
      intro hm
      have : v.data.contains '!' = true := by simp [List.contains, List.elem_eq_mem, hm]
      rw [Bool.or_eq_false_iff] at hcond
      rw [this] at hcond
      exact absurd hcond.2 (by simp)
    subst hep hev
    unfold decodeModulePathAndVersion unescapeString escapeString
    simp only
    rw [unescapeList_escapeList hpm, unescapeList_escapeList hvm]

/-- Witness for C3 at the concrete Azure example: decoding the encoded
output recovers the original pair. -/
theorem claim_C3_witness :
    decodeModulePathAndVersion "github.com/!azure/go-autorest" "v11.0.0+incompatible" =
      ("github.com/Azure/go-autorest", "v11.0.0+incompatible") :=
  claim_C3_decode_encode "github.com/Azure/go-autorest" "v11.0.0+incompatible"
    "github.com/!azure/go-autorest" "v11.0.0+incompatible" (by rfl)

/-! ## Claim theorems for base-URL normalization -/

theorem dropWhile_head_not {α : Type} {p : α → Bool} :
    ∀ (l : List α) (d : α), (l.dropWhile p).head? = some d → p d = false := by
  intro l
  induction l with
  | nil => intro d hd; simp [List.dropWhile] at hd
  | cons a t ih =>
    intro d hd
    by_cases ha : p a = true
    · rw [List.dropWhile_cons_of_pos ha] at hd
      exact ih d hd
    · rw [List.dropWhile_cons_of_neg ha] at hd
      simp only [List.head?_cons, Option.some.injEq] at hd
      subst hd
      exact Bool.not_eq_true _ |>.mp ha

/-- Claim C4: cleanURL strips all trailing slash characters and nothing
else: appending a slash never changes the result, every base splits as the
cleaned base followed by some run of slashes with the cleaned base not
ending in a slash, a base whose last character is not a slash is returned
unchanged, and the two concrete TestCleanURL cases hold. -/
theorem claim_C4_cleanURL :
    (∀ b : String, cleanURL (b ++ "/") = cleanURL b)
    ∧ (∀ b : String, ∃ n : Nat,
        b.data = (cleanURL b).data ++ List.replicate n '/'
        ∧ (cleanURL b).data.getLast? ≠ some '/')
    ∧ (∀ b : String, b.data.getLast? ≠ some '/' → cleanURL b = b)
    ∧ cleanURL "http://host.com///" = "http://host.com"
    ∧ cleanURL "http://localhost:7000/index" = "http://localhost:7000/index" := by
  refine ⟨?_, ?_, ?_, by rfl, by rfl⟩
  · intro b
    have hslash : ("/" : String).data = ['/'] := rfl
    have hsing : (['/'] : List Char).reverse = ['/'] := rfl
    unfold cleanURL
    rw [String.data_append, hslash, List.reverse_append, hsing, List.singleton_append]
    rw [List.dropWhile_cons_of_pos (by rfl)]
  · intro b
    refine ⟨(b.data.reverse.takeWhile (fun c => c == '/')).length, ?_, ?_⟩
    · have hsplit := List.takeWhile_append_dropWhile (fun c => c == '/') b.data.reverse
      have hrep : b.data.reverse.takeWhile (fun c => c == '/') =
          List.replicate (b.data.reverse.takeWhile (fun c => c == '/')).length '/' := by
        apply List.eq_replicate_of_mem
        intro x hx
        have := List.mem_takeWhile_imp hx
        exact eq_of_beq this
      calc b.data = b.data.reverse.reverse := (List.reverse_reverse _).symm
        _ = (b.data.reverse.takeWhile (fun c => c == '/')
              ++ b.data.reverse.dropWhile (fun c => c == '/')).reverse := by rw [hsplit]
        _ = (b.data.reverse.dropWhile (fun c => c == '/')).reverse
              ++ (b.data.reverse.takeWhile (fun c => c == '/')).reverse := by
            rw [List.reverse_append]
        _ = (cleanURL b).data
              ++ List.replicate (b.data.reverse.takeWhile (fun c => c == '/')).length '/' := by
            rw [cleanURL]
            rw [hrep, List.reverse_replicate, List.length_replicate]
    · intro hlast
      have h1 : (cleanURL b).data.getLast?
          = (b.data.reverse.dropWhile (fun c => c == '/')).head? := by
        rw [cleanURL]
        exact List.getLast?_reverse _
      rw [h1] at hlast
      have := dropWhile_head_not _ _ hlast
      simp at this
  · intro b hlast
    unfold cleanURL
    rcases hrev : b.data.reverse with _ | ⟨d, t⟩
    · have hdata : b.data = [] := by
        have h := congrArg List.reverse hrev
        rwa [List.reverse_reverse] at h
      apply String.ext
      simp [hdata]
    · have hd : b.data.getLast? = some d := by
        rw [← List.head?_reverse, hrev, List.head?_cons]
      have hdne : d ≠ '/' := by
        intro hEq
        rw [hEq] at hd
        exact hlast hd
      rw [List.dropWhile_cons_of_neg (by simp [hdne])]
      rw [← hrev, List.reverse_reverse]

/-- Witness for C4 at a concrete base with no trailing slash. -/
theorem claim_C4_witness : cleanURL "http://proxy.com" = "http://proxy.com" :=
  claim_C4_cleanURL.2.2.1 "http://proxy.com" (by decide)

/-! ## Claim theorems for the resolvers -/

/-- Claim C5: against any proxy that answers the info request for
my.mod/module at v1.0.0 with status 200 and a body decoding to version
v1.0.0 with the proxy's recorded commit timestamp, GetInfo returns that
metadata (Version = v1.0.0, Time = the recorded timestamp) with no error. -/
theorem claim_C5_GetInfo_success (c : Client) (u t : String)
    (hurl : c.infoURL "my.mod/module" "v1.0.0" = .ok u)
    (hstatus : (c.server u).statusCode = 200)
    (hbody : (c.server u).body = .infoJSON ⟨"v1.0.0", t⟩) :
    c.GetInfo "my.mod/module" "v1.0.0" = .ok ⟨"v1.0.0", t⟩ := by
  unfold Client.GetInfo
  rw [hurl]
  unfold Client.fetch
  dsimp only
  rw [if_pos hstatus, hbody]

/-- Witness for C5 against the test proxy of SetupTestProxy. -/
theorem claim_C5_witness :
    testClient.GetInfo "my.mod/module" "v1.0.0" = .ok ⟨"v1.0.0", "2019-01-30T00:00:00Z"⟩ :=
  claim_C5_GetInfo_success testClient
    "http://testproxy.com/my.mod/module/@v/v1.0.0.info" "2019-01-30T00:00:00Z"
    (by rfl) (by rfl) (by rfl)

/-- Claim C6: whenever the proxy answers the info request with any non-200
status, GetInfo returns no metadata, only the classified ProxyError carrying
the request URL, the numeric status, and the status text; it never returns
metadata on a non-200 response. -/
theorem claim_C6_GetInfo_not_found (c : Client) (p v u : String)
    (hurl : c.infoURL p v = .ok u)
    (hstatus : (c.server u).statusCode ≠ 200) :
    c.GetInfo p v =
      .error (.proxyError ⟨u, (c.server u).statusCode, (c.server u).statusText⟩) := by
  unfold Client.GetInfo
  rw [hurl]
  unfold Client.fetch
  dsimp only
  rw [if_neg hstatus]

/-- Witness for C6: the test proxy does not serve v3.0.0 of my.mod/module. -/
theorem claim_C6_witness :
    testClient.GetInfo "my.mod/module" "v3.0.0" =
      .error (.proxyError
        ⟨"http://testproxy.com/my.mod/module/@v/v3.0.0.info", 404, "404 Not Found"⟩) :=
  claim_C6_GetInfo_not_found testClient "my.mod/module" "v3.0.0"
    "http://testproxy.com/my.mod/module/@v/v3.0.0.info" (by rfl) (by decide)

/-- Claim C7: when the proxy answers the zip request with status 200 and an
archive holding a given entry-name list, GetZip returns exactly that list,
with no entry added, removed, renamed, or re-rooted. -/
theorem claim_C7_GetZip_entries (c : Client) (p v u : String) (entries : List String)
    (hurl : c.zipURL p v = .ok u)
    (hstatus : (c.server u).statusCode = 200)
    (hbody : (c.server u).body = .zipBytes entries) :
    c.GetZip p v = .ok entries := by
  unfold Client.GetZip
  rw [hurl]
  unfold Client.fetch
  dsimp only
  rw [if_pos hstatus, hbody]

/-- Witness for C7: the five entries served by the test proxy, each keeping
the my.mod/module@v1.0.0/ prefix, are returned verbatim. -/
theorem claim_C7_witness :
    testClient.GetZip "my.mod/module" "v1.0.0" =
      .ok ["my.mod/module@v1.0.0/LICENSE", "my.mod/module@v1.0.0/README.md",
           "my.mod/module@v1.0.0/go.mod", "my.mod/module@v1.0.0/foo/foo.go",
           "my.mod/module@v1.0.0/bar/bar.go"] :=
  claim_C7_GetZip_entries testClient "my.mod/module" "v1.0.0"
    "http://testproxy.com/my.mod/module/@v/v1.0.0.zip"
    ["my.mod/module@v1.0.0/LICENSE", "my.mod/module@v1.0.0/README.md",
     "my.mod/module@v1.0.0/go.mod", "my.mod/module@v1.0.0/foo/foo.go",
     "my.mod/module@v1.0.0/bar/bar.go"]
    (by rfl) (by rfl) (by rfl)

/-- Claim C8: on any non-200 zip response, GetZip returns the classified
error whose message is exactly the http.Get(%q) returned response: %d (%q)
format applied to the request URL, the numeric status, and the status
text. -/
theorem claim_C8_GetZip_error_message (c : Client) (p v u : String)
    (hurl : c.zipURL p v = .ok u)
    (hstatus : (c.server u).statusCode ≠ 200) :
    ∃ e : ProxyError,
      c.GetZip p v = .error (.proxyError e)
      ∧ e.requestedURL = u
      ∧ e.statusCode = (c.server u).statusCode
      ∧ e.statusText = (c.server u).statusText
      ∧ (ClientError.proxyError e).message
          = formatResponseError u (c.server u).statusCode (c.server u).statusText := by
  refine ⟨⟨u, (c.server u).statusCode, (c.server u).statusText⟩, ?_, rfl, rfl, rfl, rfl⟩
  unfold Client.GetZip
  rw [hurl]
  unfold Client.fetch
  dsimp only
  rw [if_neg hstatus]

/-- Witness for C8: the test proxy serves no my.mod/nonexistmodule, so the
zip request yields 404 with the exact formatted message. -/
theorem claim_C8_witness :
    ∃ e : ProxyError,
      testClient.GetZip "my.mod/nonexistmodule" "v1.0.0" = .error (.proxyError e)
      ∧ e.requestedURL = "http://testproxy.com/my.mod/nonexistmodule/@v/v1.0.0.zip"
      ∧ e.statusCode = (testClient.server
          "http://testproxy.com/my.mod/nonexistmodule/@v/v1.0.0.zip").statusCode
      ∧ e.statusText = (testClient.server
          "http://testproxy.com/my.mod/nonexistmodule/@v/v1.0.0.zip").statusText
      ∧ (ClientError.proxyError e).message
          = formatResponseError "http://testproxy.com/my.mod/nonexistmodule/@v/v1.0.0.zip"
              (testClient.server
                "http://testproxy.com/my.mod/nonexistmodule/@v/v1.0.0.zip").statusCode
              (testClient.server
                "http://testproxy.com/my.mod/nonexistmodule/@v/v1.0.0.zip").statusText :=
  claim_C8_GetZip_error_message testClient "my.mod/nonexistmodule" "v1.0.0"
    "http://testproxy.com/my.mod/nonexistmodule/@v/v1.0.0.zip" (by rfl) (by decide)

/-- The formatted message of the C8 witness, evaluated: it embeds the quoted
URL, the numeric status 404, and the quoted status text 404 Not Found. -/
theorem formatResponseError_concrete :
    formatResponseError "http://testproxy.com/my.mod/nonexistmodule/@v/v1.0.0.zip"
        404 "404 Not Found"
      = "http.Get(\"http://testproxy.com/my.mod/nonexistmodule/@v/v1.0.0.zip\") returned response: 404 (\"404 Not Found\")" := by
  rfl

/-! ## Claim theorems for README rendering -/

/-- Claim C9: for every readme file path whose extension is not .md,
readmeHTML is exactly the pre element wrapping the HTML-escaped contents —
no markdown rendering, link rewriting, or sanitizer policy on this branch —
and the escaped contents contain none of the HTML metacharacters <, >, the
double quote, or the apostrophe.  -/
theorem claim_C9_readmeHTML_plain (markdownPipeline : String → String)
    (p contents : String) (h : filepathExt p ≠ ".md") :
    readmeHTML markdownPipeline p contents
      = "<pre class=\"readme\">" ++ htmlEscapeString contents ++ "</pre>"
    ∧ ∀ a ∈ (htmlEscapeString contents).data,
        a ≠ '<' ∧ a ≠ '>' ∧ a ≠ '"' ∧ a ≠ Char.ofNat 39 := by
  constructor
  · unfold readmeHTML
    rw [if_pos h]
  · intro a ha
    unfold htmlEscapeString at ha
    simp only [List.mem_flatMap] at ha
    obtain ⟨b, _, hab⟩ := ha
    unfold htmlEscapeChar at hab
    split_ifs at hab with h1 h2 h3 h4 h5
    · exact (by decide : ∀ x ∈ (['&', 'a', 'm', 'p', ';'] : List Char),
        x ≠ '<' ∧ x ≠ '>' ∧ x ≠ '"' ∧ x ≠ Char.ofNat 39) a hab
    · exact (by decide : ∀ x ∈ (['&', '#', '3', '9', ';'] : List Char),
        x ≠ '<' ∧ x ≠ '>' ∧ x ≠ '"' ∧ x ≠ Char.ofNat 39) a hab
    · exact (by decide : ∀ x ∈ (['&', 'l', 't', ';'] : List Char),
        x ≠ '<' ∧ x ≠ '>' ∧ x ≠ '"' ∧ x ≠ Char.ofNat 39) a hab
    · exact (by decide : ∀ x ∈ (['&', 'g', 't', ';'] : List Char),
        x ≠ '<' ∧ x ≠ '>' ∧ x ≠ '"' ∧ x ≠ Char.ofNat 39) a hab
    · exact (by decide : ∀ x ∈ (['&', '#', '3', '4', ';'] : List Char),
        x ≠ '<' ∧ x ≠ '>' ∧ x ≠ '"' ∧ x ≠ Char.ofNat 39) a hab
    · simp only [List.mem_singleton] at hab
      subst hab
      exact ⟨h3, h4, h5, h2⟩

/-- Witness for C9 at a concrete non-markdown readme. -/
theorem claim_C9_witness :
    readmeHTML id "README.txt" "a <b> & c"
      = "<pre class=\"readme\">" ++ htmlEscapeString "a <b> & c" ++ "</pre>"
    ∧ ∀ a ∈ (htmlEscapeString "a <b> & c").data,
        a ≠ '<' ∧ a ≠ '>' ∧ a ≠ '"' ∧ a ≠ Char.ofNat 39 :=
  claim_C9_readmeHTML_plain id "README.txt" "a <b> & c" (by decide)

/-- Claim C10: translateRelativeLink leaves the node unchanged when the
repository hostname is not github.com, when the destination fails to parse,
or when it parses as an absolute URL; otherwise it replaces the destination
with an absolute https URL on raw.githubusercontent.com whose path joins
the repository path, master, and the cleaned image path.  -/
theorem claim_C10_translateRelativeLink (parse : String → Option URL)
    (node : Node) (repo : URL) :
    (repo.hostname ≠ "github.com" → translateRelativeLink parse node repo = node)
    ∧ (parse node.destination = none → translateRelativeLink parse node repo = node)
    ∧ (∀ u, parse node.destination = some u → u.isAbs = true →
        translateRelativeLink parse node repo = node)
    ∧ (∀ u, repo.hostname = "github.com" → parse node.destination = some u →
        u.isAbs = false →
        (translateRelativeLink parse node repo).destination
          = urlString ⟨"https", "raw.githubusercontent.com",
              goPathJoin [repo.path, "master", goPathClean u.path]⟩) := by
  refine ⟨?_, ?_, ?_, ?_⟩
  · intro hh
    unfold translateRelativeLink
    rw [if_pos hh]
  · intro hparse
    unfold translateRelativeLink
    by_cases hh : repo.hostname ≠ "github.com"
    · rw [if_pos hh]
    · rw [if_neg hh, hparse]
  · intro u hparse habs
    unfold translateRelativeLink
    by_cases hh : repo.hostname ≠ "github.com"
    · rw [if_pos hh]
    · rw [if_neg hh, hparse]
      dsimp only
      rw [if_pos habs]
  · intro u hh hparse habs
    unfold translateRelativeLink
    rw [if_neg (fun hne => hne hh), hparse]
    dsimp only
    rw [if_neg (by rw [habs]; exact Bool.false_ne_true)]

/-- Witness for C10: a relative image path in a github.com repository is
rewritten onto raw.githubusercontent.com under the repository path and the
master branch.  -/
theorem claim_C10_witness :
    (translateRelativeLink sampleParse sampleNode sampleRepo).destination
      = urlString ⟨"https", "raw.githubusercontent.com",
          goPathJoin [sampleRepo.path, "master", goPathClean "foo/logo.png"]⟩ :=
  (claim_C10_translateRelativeLink sampleParse sampleNode sampleRepo).2.2.2
    ⟨"", "", "foo/logo.png"⟩ (by rfl) (by rfl) (by rfl)

/-- The C10 rewrite, evaluated on the concrete fixture: the destination
becomes the absolute raw.githubusercontent.com URL.  -/
theorem translateRelativeLink_sample_eval :
    translateRelativeLink sampleParse sampleNode sampleRepo
      = ⟨"https://raw.githubusercontent.com/gin-gonic/gin/master/foo/logo.png"⟩ := by
  have hint : String.intercalate "/" ["/gin-gonic/gin", "master", "foo/logo.png"]
      = "/gin-gonic/gin/master/foo/logo.png" := rfl
  simp [translateRelativeLink, sampleParse, sampleNode, sampleRepo, URL.hostname,
    splitHostPortHost, URL.isAbs, goPathJoin, hint, goPathClean, cleanStep, btPos, urlString]

end Pkgsite
